import Mathlib

/-!
Shallow embedding of the `robotstxt` crate (`src/lib.rs`): a robots.txt
parser with queries `can_fetch`, `crawl_delay`, `sitemaps`, `request_rate`.

Strings are modelled as Lean `String`/`List Char`; Rust byte-level
operations (percent decoding, UTF-8 validation) are modelled over `List Nat`
byte lists.  Machine floating point (`f64`) is modelled by exact decimal
values; the saturating `as u64`/`as u32` casts are modelled explicitly.
Rust's Unicode `to_lowercase`/`char::is_whitespace` are modelled by their
ASCII cores plus the Unicode white-space code points, which coincide with
the Rust behaviour on every input exercised here.
-/

namespace Robots

/-- White-space test matching Rust `char::is_whitespace` (Unicode
White_Space property). -/
def isWSp (c : Char) : Bool :=
  c = ' ' || c = '\t' || c = '\n' || c = '\r' ||
  c.toNat = 0xB || c.toNat = 0xC || c.toNat = 0x85 || c.toNat = 0xA0 ||
  c.toNat = 0x1680 || (0x2000 ≤ c.toNat && c.toNat ≤ 0x200A) ||
  c.toNat = 0x2028 || c.toNat = 0x2029 || c.toNat = 0x202F ||
  c.toNat = 0x205F || c.toNat = 0x3000

/-- Rust `str::trim`: drop leading and trailing white space. -/
def trimChars (l : List Char) : List Char :=
  ((l.dropWhile isWSp).reverse.dropWhile isWSp).reverse

/-- ASCII lower-casing, the core of Rust `str::to_lowercase`. -/
def lowerChars (l : List Char) : List Char :=
  l.map Char.toLower

/-- Rust `str::split(c)`: split at every occurrence of `c`; always returns
at least one (possibly empty) piece. -/
def splitOnChar (c : Char) : List Char → List (List Char)
  | [] => [[]]
  | x :: xs =>
    if x = c then [] :: splitOnChar c xs
    else
      match splitOnChar c xs with
      | [] => [[x]]
      | h :: t => (x :: h) :: t

/-- Rust `str::splitn(2, c)` with a found separator: the part before the
first colon-like separator and the (unsplit) remainder; `none` when the
separator does not occur. -/
def splitFirstColon : List Char → Option (List Char × List Char)
  | [] => none
  | x :: rest =>
    if x = ':' then some ([], rest)
    else (splitFirstColon rest).map (fun p => (x :: p.1, p.2))

/-- Rust `str::contains` on sequences: `needle` occurs contiguously inside
`hay`. -/
def containsSeq (hay needle : List Char) : Bool :=
  needle.isPrefixOf hay ||
    match hay with
    | [] => false
    | _ :: t => containsSeq t needle

/-- UTF-8 encoding of one scalar value (Rust `str::as_bytes`, per char). -/
def utf8EncodeChar (c : Char) : List Nat :=
  let n := c.toNat
  if n < 0x80 then [n]
  else if n < 0x800 then [0xC0 + n / 64, 0x80 + n % 64]
  else if n < 0x10000 then
    [0xE0 + n / 4096, 0x80 + (n / 64) % 64, 0x80 + n % 64]
  else
    [0xF0 + n / 0x40000, 0x80 + (n / 4096) % 64, 0x80 + (n / 64) % 64,
     0x80 + n % 64]

/-- The UTF-8 byte sequence of a character list (Rust `str::as_bytes`). -/
def strBytes (l : List Char) : List Nat :=
  l.flatMap utf8EncodeChar

/-- ASCII hex digit test, as accepted by the `url` crate's percent decoder. -/
def isHexDigit (b : Nat) : Bool :=
  (48 ≤ b && b ≤ 57) || (65 ≤ b && b ≤ 70) || (97 ≤ b && b ≤ 102)

/-- Value of an ASCII hex digit byte. -/
def hexVal (b : Nat) : Nat :=
  if b ≤ 57 then b - 48 else if b ≤ 70 then b - 55 else b - 87

/-- Modelled external collaborator: `url::percent_encoding::percent_decode`
on bytes.  A `%` followed by two hex digits becomes the denoted byte; any
other `%` is passed through literally. -/
def percentDecodeBytes : List Nat → List Nat
  | [] => []
  | 37 :: h1 :: h2 :: rest =>
    if isHexDigit h1 && isHexDigit h2 then
      (hexVal h1 * 16 + hexVal h2) :: percentDecodeBytes rest
    else
      37 :: percentDecodeBytes (h1 :: h2 :: rest)
  | b :: rest => b :: percentDecodeBytes rest

/-- Continuation-byte test for UTF-8 decoding. -/
def contByte (b : Nat) : Bool :=
  0x80 ≤ b && b < 0xC0

/-- Modelled external collaborator: Rust `String::from_utf8` validation and
decoding; rejects overlong forms, surrogates and out-of-range scalars. -/
def utf8Decode? : List Nat → Option (List Char)
  | [] => some []
  | b :: rest =>
    if b < 0x80 then (utf8Decode? rest).map (fun cs => Char.ofNat b :: cs)
    else if b < 0xE0 then
      match rest with
      | b2 :: rest2 =>
        if 0xC2 ≤ b && contByte b2 then
          (utf8Decode? rest2).map
            (fun cs => Char.ofNat ((b - 0xC0) * 64 + (b2 - 0x80)) :: cs)
        else none
      | [] => none
    else if b < 0xF0 then
      match rest with
      | b2 :: b3 :: rest3 =>
        if contByte b2 && contByte b3 then
          let n := (b - 0xE0) * 4096 + (b2 - 0x80) * 64 + (b3 - 0x80)
          if 0x800 ≤ n && !(0xD800 ≤ n && n ≤ 0xDFFF) then
            (utf8Decode? rest3).map (fun cs => Char.ofNat n :: cs)
          else none
        else none
      | _ => none
    else
      match rest with
      | b2 :: b3 :: b4 :: rest4 =>
        if b < 0xF5 && contByte b2 && contByte b3 && contByte b4 then
          let n := (b - 0xF0) * 0x40000 + (b2 - 0x80) * 4096 +
            (b3 - 0x80) * 64 + (b4 - 0x80)
          if 0x10000 ≤ n && n ≤ 0x10FFFF then
            (utf8Decode? rest4).map (fun cs => Char.ofNat n :: cs)
          else none
        else none
      | _ => none

/-- `String::from_utf8(percent_decode(s.as_bytes()).collect()).unwrap_or("")`:
percent-decode a string's UTF-8 bytes and re-validate, with an invalid
result collapsing to the empty string. -/
def percentDecode (l : List Char) : List Char :=
  (utf8Decode? (percentDecodeBytes (strBytes l))).getD []


/-- Exact model of a value produced by Rust `f64::from_str`: a signed exact
decimal `(-1)^neg * num / 10^den`, an infinity, or NaN.  (True `f64`
rounding is idealised to exact decimal arithmetic; the truncating and
saturating conversions below agree with the machine behaviour on all
non-adversarial values.) -/
inductive FParsed where
  | fin (neg : Bool) (num : Nat) (den : Nat)
  | inf (neg : Bool)
  | nan
deriving DecidableEq

/-- Numeric value of a digit list, most significant first. -/
def digitsToNat (ds : List Char) : Nat :=
  ds.foldl (fun a c => a * 10 + (c.toNat - 48)) 0

/-- Model of Rust `"...".parse::<f64>()`: optional sign, then `inf`,
`infinity` or `nan` (case-insensitive), or a decimal mantissa (digits with
an optional fractional part, at least one digit) with an optional
integer exponent introduced by `e`/`E`. -/
def parseF64 (s : List Char) : Option FParsed :=
  match s with
  | [] => none
  | _ =>
    let signed : Bool × List Char :=
      match s with
      | '-' :: r => (true, r)
      | '+' :: r => (false, r)
      | r => (false, r)
    let neg := signed.1
    let rest := signed.2
    let low := lowerChars rest
    if low = "inf".data || low = "infinity".data then some (.inf neg)
    else if low = "nan".data then some .nan
    else
      let d1 := rest.takeWhile Char.isDigit
      let r1 := rest.dropWhile Char.isDigit
      let fracSplit : List Char × List Char :=
        match r1 with
        | '.' :: r => (r.takeWhile Char.isDigit, r.dropWhile Char.isDigit)
        | r => ([], r)
      let d2 := fracSplit.1
      let r2 := fracSplit.2
      if d1 = [] && d2 = [] then none
      else
        let mant := digitsToNat (d1 ++ d2)
        let fracLen := d2.length
        match r2 with
        | [] => some (.fin neg mant fracLen)
        | e :: r3 =>
          if e = 'e' || e = 'E' then
            let esigned : Bool × List Char :=
              match r3 with
              | '-' :: r => (true, r)
              | '+' :: r => (false, r)
              | r => (false, r)
            let ed := esigned.2.takeWhile Char.isDigit
            if ed = [] || esigned.2.dropWhile Char.isDigit ≠ [] then none
            else
              let ev := digitsToNat ed
              if esigned.1 then some (.fin neg mant (fracLen + ev))
              else if fracLen ≤ ev then
                some (.fin neg (mant * 10 ^ (ev - fracLen)) 0)
              else some (.fin neg mant (fracLen - ev))
          else none

/-- `std::time::Duration`: whole seconds and a sub-second nanosecond count
(always below `10^9` as produced here). -/
structure Duration where
  secs : Nat
  nanos : Nat
deriving DecidableEq

/-- Largest `u64` value, the saturation point of `as u64` casts. -/
def U64MAX : Nat := 2 ^ 64 - 1

/-- `Duration::new(delay.trunc() as u64, (delay.fract() * 1e9) as u32)`:
truncate toward zero with saturating casts (negative values and NaN
saturate to zero, infinities to `u64::MAX`). -/
def durationOfF64 : FParsed → Duration
  | .fin neg num den =>
    if neg then ⟨0, 0⟩
    else
      let p := 10 ^ den
      if num / p > U64MAX then ⟨U64MAX, 0⟩
      else ⟨num / p, num % p * 1000000000 / p⟩
  | .inf neg => if neg then ⟨0, 0⟩ else ⟨U64MAX, 0⟩
  | .nan => ⟨0, 0⟩

/-- Model of Rust `"...".parse::<usize>()` (64-bit): optional `+`, then one
or more digits, rejecting overflow past `u64::MAX`. -/
def parseUsize (s : List Char) : Option Nat :=
  let s1 : List Char :=
    match s with
    | '+' :: r => r
    | r => r
  if s1 ≠ [] && s1.all Char.isDigit then
    let n := digitsToNat s1
    if n ≤ U64MAX then some n else none
  else none

/-- Modelled external collaborator: the `url` crate's `Url::parse` success
test.  A string parses as an absolute URL iff it starts with a scheme (an
ASCII letter followed by letters, digits, `+`, `-` or `.`) and a colon.
Successful parses are represented by the input string itself. -/
def urlParseOk (s : List Char) : Bool :=
  match splitFirstColon s with
  | some (scheme, _) =>
    match scheme with
    | [] => false
    | c :: cs => c.isAlpha && cs.all (fun x => x.isAlphanum || x = '+' || x = '-' || x = '.')
  | none => false

/-- `struct RequestRate { requests: usize, seconds: usize }`. -/
structure RequestRate where
  requests : Nat
  seconds : Nat
deriving DecidableEq

/-- `struct RuleLine { path, allowance }`: one `Allow:`/`Disallow:` line. -/
structure RuleLine where
  path : String
  allowance : Bool
deriving DecidableEq

/-- `RuleLine::new`: an empty `Disallow` value is normalised to allow-all. -/
def RuleLine.new (path : String) (allowance : Bool) : RuleLine :=
  if path == "" && !allowance then ⟨path, true⟩ else ⟨path, allowance⟩

/-- `RuleLine::applies_to`: the literal path `"*"` matches anything,
otherwise literal prefix match. -/
def RuleLine.applies_to (r : RuleLine) (filename : String) : Bool :=
  r.path == "*" || r.path.data.isPrefixOf filename.data

/-- `struct Entry`: one user-agent group. -/
structure Entry where
  useragents : List String
  rulelines : List RuleLine
  crawl_delay : Option Duration
  sitemaps : List String
  req_rate : Option RequestRate
deriving DecidableEq

/-- `Entry::new`. -/
def Entry.new : Entry :=
  ⟨[], [], none, [], none⟩

/-- `Entry::applies_to`: lower-case the token of the agent string before
its first `/` and test it against the stored agents (`"*"` matches
everything, otherwise substring containment). -/
def Entry.applies_to (e : Entry) (useragent : String) : Bool :=
  let ua := lowerChars ((splitOnChar '/' useragent.data).headD [])
  e.useragents.any (fun agent => agent == "*" || containsSeq ua agent.data)

/-- `Entry::allowance`: the flag of the first rule line applying to
`filename`, defaulting to `true`. -/
def Entry.allowance (e : Entry) (filename : String) : Bool :=
  match e.rulelines.find? (fun line => line.applies_to filename) with
  | some line => line.allowance
  | none => true

/-- `Entry::push_useragent`: store the lower-cased agent token. -/
def Entry.push_useragent (e : Entry) (useragent : String) : Entry :=
  { e with useragents := e.useragents ++ [⟨lowerChars useragent.data⟩] }

/-- `Entry::push_ruleline`. -/
def Entry.push_ruleline (e : Entry) (ruleline : RuleLine) : Entry :=
  { e with rulelines := e.rulelines ++ [ruleline] }

/-- `Entry::has_useragent`: exact membership among the stored agents. -/
def Entry.has_useragent (e : Entry) (useragent : String) : Bool :=
  e.useragents.contains useragent

/-- `Entry::is_empty`: no agents and no rule lines. -/
def Entry.is_empty (e : Entry) : Bool :=
  e.useragents.isEmpty && e.rulelines.isEmpty

/-- `Entry::set_crawl_delay`. -/
def Entry.set_crawl_delay (e : Entry) (delay : Duration) : Entry :=
  { e with crawl_delay := some delay }

/-- `Entry::add_sitemap`: push the URL only when `Url::parse` succeeds. -/
def Entry.add_sitemap (e : Entry) (url : String) : Entry :=
  if urlParseOk url.data then { e with sitemaps := e.sitemaps ++ [url] } else e

/-- `Entry::set_request_rate`. -/
def Entry.set_request_rate (e : Entry) (req_rate : RequestRate) : Entry :=
  { e with req_rate := some req_rate }

/-- `struct RobotFileParser`: the parsed ruleset. -/
structure RobotFileParser where
  entries : List Entry
  default_entry : Entry
  disallow_all : Bool
  allow_all : Bool
deriving DecidableEq

/-- `RobotFileParser::_add_entry`: a group declaring `"*"` fills the
default slot only if that slot is still empty (and is otherwise dropped);
any other group is appended to `entries`. -/
def RobotFileParser._add_entry (p : RobotFileParser) (entry : Entry) :
    RobotFileParser :=
  if entry.has_useragent "*" then
    if p.default_entry.is_empty then { p with default_entry := entry } else p
  else
    { p with entries := p.entries ++ [entry] }

/-- The parse loop's mutable context: the ruleset built so far, the state
(0 start, 1 saw user-agent, 2 saw rule) and the in-progress entry. -/
structure ParseSt where
  robots : RobotFileParser
  state : Nat
  entry : Entry
deriving DecidableEq

/-- The effect of a raw-empty line on the parse state (`match state` at the
top of the parse loop). -/
def blankStep (st : ParseSt) : ParseSt :=
  match st.state with
  | 1 => { st with entry := Entry.new, state := 0 }
  | 2 =>
    { st with
      robots := st.robots._add_entry st.entry
      entry := Entry.new
      state := 0 }
  | _ => st

/-- The recognised directive names. -/
inductive Dir where
  | userAgent | disallow | allow | crawlDelay | sitemap | requestRate
deriving DecidableEq

/-- Directive dispatch on the lower-cased field name (`match part0`). -/
def dirOf (part0 : List Char) : Option Dir :=
  if part0 = "user-agent".data then some .userAgent
  else if part0 = "disallow".data then some .disallow
  else if part0 = "allow".data then some .allow
  else if part0 = "crawl-delay".data then some .crawlDelay
  else if part0 = "sitemap".data then some .sitemap
  else if part0 = "request-rate".data then some .requestRate
  else none

/-- `numbers.len() == 2 && numbers[0].is_ok() && numbers[1].is_ok()`:
store the request rate exactly when both halves parsed. -/
def rateUpdate (e : Entry) (numbers : List (Option Nat)) : Entry :=
  match numbers with
  | [some rq, some sc] => e.set_request_rate ⟨rq, sc⟩
  | _ => e

/-- One recognised `name: value` directive applied to the parse context
(the `match part0 { ... }` body of the parse loop); `part1` is already
trimmed and percent-decoded. -/
def applyDirective (st : ParseSt) (part0 part1 : List Char) : ParseSt :=
  match dirOf part0 with
  | some .userAgent =>
    let st2 :=
      if st.state = 2 then
        { st with robots := st.robots._add_entry st.entry, entry := Entry.new }
      else st
    { st2 with entry := st2.entry.push_useragent ⟨part1⟩, state := 1 }
  | some .disallow =>
    if st.state ≠ 0 then
      { st with
        entry := st.entry.push_ruleline (RuleLine.new ⟨part1⟩ false)
        state := 2 }
    else st
  | some .allow =>
    if st.state ≠ 0 then
      { st with
        entry := st.entry.push_ruleline (RuleLine.new ⟨part1⟩ true)
        state := 2 }
    else st
  | some .crawlDelay =>
    if st.state ≠ 0 then
      { st with
        entry :=
          match parseF64 part1 with
          | some f => st.entry.set_crawl_delay (durationOfF64 f)
          | none => st.entry
        state := 2 }
    else st
  | some .sitemap =>
    if st.state ≠ 0 then
      { st with entry := st.entry.add_sitemap ⟨part1⟩, state := 2 }
    else st
  | some .requestRate =>
    if st.state ≠ 0 then
      { st with
        entry := rateUpdate st.entry ((splitOnChar '/' part1).map parseUsize)
        state := 2 }
    else st
  | none => st

/-- One iteration of the parse loop on a raw line: raw-empty lines drive
`blankStep`, then the line is comment-stripped and trimmed, skipped if now
blank, split at its first `:` (skipped when there is none), and dispatched
as a directive with a trimmed, percent-decoded value. -/
def parseLine (st : ParseSt) (ln : List Char) : ParseSt :=
  let st1 := if ln = [] then blankStep st else st
  let ln2 := trimChars (ln.takeWhile (fun c => c ≠ '#'))
  if ln2 = [] then st1
  else
    match splitFirstColon ln2 with
    | none => st1
    | some (p0, p1) =>
      applyDirective st1 (lowerChars (trimChars p0)) (percentDecode (trimChars p1))

/-- `RobotFileParser::parse`: run the line state machine over the input
split at `\n`, committing a final in-progress group left in state 2. -/
def RobotFileParser.parse (robots_txt : String) : RobotFileParser :=
  let lines := splitOnChar '\n' robots_txt.data
  let final := lines.foldl parseLine ⟨⟨[], Entry.new, false, false⟩, 0, Entry.new⟩
  if final.state = 2 then final.robots._add_entry final.entry else final.robots

/-- The preprocessed query path of `can_fetch`: trim, percent-decode, and
substitute `"/"` for an empty result. -/
def urlPath (url : String) : String :=
  let decoded_url := percentDecode (trimChars url.data)
  if decoded_url ≠ [] then ⟨decoded_url⟩ else "/"

/-- `RobotFileParser::can_fetch`: global overrides first, then the first
applying explicit entry decides, then a non-empty default entry, then
allow. -/
def RobotFileParser.can_fetch (p : RobotFileParser) (useragent url : String) :
    Bool :=
  if p.disallow_all then false
  else if p.allow_all then true
  else
    let url_str := urlPath url
    match p.entries.find? (fun entry => entry.applies_to useragent) with
    | some entry => entry.allowance url_str
    | none =>
      if !p.default_entry.is_empty then p.default_entry.allowance url_str
      else true

/-- `RobotFileParser::crawl_delay`: the first applying explicit entry's
delay; the default entry is never consulted. -/
def RobotFileParser.crawl_delay (p : RobotFileParser) (useragent : String) :
    Option Duration :=
  match p.entries.find? (fun entry => entry.applies_to useragent) with
  | some entry => entry.crawl_delay
  | none => none

/-- `RobotFileParser::sitemaps`: the first applying explicit entry's
sitemap list; the default entry is never consulted. -/
def RobotFileParser.sitemaps (p : RobotFileParser) (useragent : String) :
    Option (List String) :=
  match p.entries.find? (fun entry => entry.applies_to useragent) with
  | some entry => some entry.sitemaps
  | none => none

/-- `RobotFileParser::request_rate`: the first applying explicit entry's
rate; the default entry is never consulted. -/
def RobotFileParser.request_rate (p : RobotFileParser) (useragent : String) :
    Option RequestRate :=
  match p.entries.find? (fun entry => entry.applies_to useragent) with
  | some entry => entry.req_rate
  | none => none

/-- The spec's claimed query-path preprocessing of `can_fetch`, stated in
the spec's order (percent-decode first, then trim), for comparison with
the source's `urlPath`. -/
def specUrlPath (url : String) : String :=
  let decoded_url := trimChars (percentDecode url.data)
  if decoded_url ≠ [] then ⟨decoded_url⟩ else "/"

/-- The spec's claimed crawl-delay value grammar: a non-negative decimal
number (digits with an optional fractional part, no sign), for comparison
with the source's `parseF64`. -/
def specNonNegDecimal (s : List Char) : Bool :=
  match splitOnChar '.' s with
  | [a] => a ≠ [] && a.all Char.isDigit
  | [a, b] => (a ≠ [] || b ≠ []) && a.all Char.isDigit && b.all Char.isDigit
  | _ => false

/-! ### Supporting lemmas -/

theorem string_data_mk (l : List Char) : (⟨l⟩ : String).data = l := rfl

theorem find?_append_first {α : Type} (p : α → Bool) (pre : List α) (x : α)
    (post : List α) (hpre : ∀ y ∈ pre, p y = false) (hx : p x = true) :
    (pre ++ x :: post).find? p = some x := by
  induction pre with
  | nil => simpa using List.find?_cons_of_pos post hx
  | cons a t ih =>
    have ha : p a = false := hpre a (by simp)
    simp only [List.cons_append]
    rw [List.find?_cons_of_neg _ (by simp [ha])]
    exact ih fun y hy => hpre y (by simp [hy])

theorem splitOnChar_ne_nil (c : Char) (l : List Char) : splitOnChar c l ≠ [] := by
  cases l with
  | nil => simp [splitOnChar]
  | cons x xs =>
    simp only [splitOnChar]
    by_cases hx : x = c
    · simp [hx]
    · simp only [if_neg hx]
      cases splitOnChar c xs <;> simp

theorem splitOnChar_headD (c : Char) (l : List Char) :
    (splitOnChar c l).headD [] = l.takeWhile (fun y => y ≠ c) := by
  induction l with
  | nil => rfl
  | cons x xs ih =>
    by_cases hx : x = c
    · subst hx
      simp [splitOnChar, List.takeWhile_cons]
    · simp only [splitOnChar, if_neg hx, List.takeWhile_cons]
      cases h : splitOnChar c xs with
      | nil => exact absurd h (splitOnChar_ne_nil c xs)
      | cons hh tt =>
        rw [h] at ih
        simp only [List.headD_cons] at ih ⊢
        simp [ih, hx]

theorem containsSeq_iff (hay needle : List Char) :
    containsSeq hay needle = true ↔ needle <:+: hay := by
  induction hay with
  | nil =>
    simp [containsSeq, List.isPrefixOf_iff_prefix, List.prefix_nil,
      List.infix_nil]
  | cons a t ih =>
    rw [containsSeq, Bool.or_eq_true, List.isPrefixOf_iff_prefix, ih,
      List.infix_cons_iff]

theorem rateUpdate_shape (e : Entry) (ns : List (Option Nat))
    (h : ∀ rq sc, ns ≠ [some rq, some sc]) : rateUpdate e ns = e := by
  cases ns with
  | nil => rfl
  | cons a t =>
    cases t with
    | nil => cases a <;> rfl
    | cons b u =>
      cases u with
      | nil =>
        cases a with
        | none => rfl
        | some rq =>
          cases b with
          | none => rfl
          | some sc => exact absurd rfl (h rq sc)
      | cons c v => cases a <;> cases b <;> rfl

theorem addEntry_flags (p : RobotFileParser) (e : Entry) :
    (p._add_entry e).disallow_all = p.disallow_all ∧
    (p._add_entry e).allow_all = p.allow_all := by
  unfold RobotFileParser._add_entry
  split
  · split <;> exact ⟨rfl, rfl⟩
  · exact ⟨rfl, rfl⟩

theorem blankStep_flags (st : ParseSt) :
    (blankStep st).robots.disallow_all = st.robots.disallow_all ∧
    (blankStep st).robots.allow_all = st.robots.allow_all := by
  unfold blankStep
  split
  · exact ⟨rfl, rfl⟩
  · exact ⟨(addEntry_flags _ _).1, (addEntry_flags _ _).2⟩
  · exact ⟨rfl, rfl⟩

theorem applyDirective_flags (st : ParseSt) (p0 p1 : List Char) :
    (applyDirective st p0 p1).robots.disallow_all = st.robots.disallow_all ∧
    (applyDirective st p0 p1).robots.allow_all = st.robots.allow_all := by
  unfold applyDirective
  split
  · split
    · exact ⟨(addEntry_flags _ _).1, (addEntry_flags _ _).2⟩
    · exact ⟨rfl, rfl⟩
  · split <;> exact ⟨rfl, rfl⟩
  · split <;> exact ⟨rfl, rfl⟩
  · split <;> exact ⟨rfl, rfl⟩
  · split <;> exact ⟨rfl, rfl⟩
  · split <;> exact ⟨rfl, rfl⟩
  · exact ⟨rfl, rfl⟩

theorem parseLine_flags (st : ParseSt) (ln : List Char) :
    (parseLine st ln).robots.disallow_all = st.robots.disallow_all ∧
    (parseLine st ln).robots.allow_all = st.robots.allow_all := by
  have hst1 : (if ln = [] then blankStep st else st).robots.disallow_all =
        st.robots.disallow_all ∧
      (if ln = [] then blankStep st else st).robots.allow_all =
        st.robots.allow_all := by
    by_cases h : ln = []
    · rw [if_pos h]
      exact blankStep_flags st
    · rw [if_neg h]
      exact ⟨rfl, rfl⟩
  simp only [parseLine]
  split
  · exact hst1
  · split
    · exact hst1
    · exact ⟨(applyDirective_flags _ _ _).1.trans hst1.1,
        (applyDirective_flags _ _ _).2.trans hst1.2⟩

theorem foldl_parseLine_flags (lines : List (List Char)) (st : ParseSt) :
    (lines.foldl parseLine st).robots.disallow_all = st.robots.disallow_all ∧
    (lines.foldl parseLine st).robots.allow_all = st.robots.allow_all := by
  induction lines generalizing st with
  | nil => exact ⟨rfl, rfl⟩
  | cons l ls ih =>
    obtain ⟨h1, h2⟩ := ih (parseLine st l)
    obtain ⟨g1, g2⟩ := parseLine_flags st l
    exact ⟨h1.trans g1, h2.trans g2⟩

/-! ### Claim theorems -/

/-- Claim C1: rule resolution within a group is first-match-wins in
insertion order with a fail-open default (`Group.allowance(path)` returns
the allow flag of the first rule in insertion order that applies, and true
when no rule matches), and for a group holding `Disallow: /x` then
`Allow: /x/y`, `can_fetch` of that group's agent and `"/x/y"` is false. -/
theorem allowance_first_match_wins :
    (∀ (e : Entry) (path : String) (pre : List RuleLine) (r : RuleLine)
        (post : List RuleLine), e.rulelines = pre ++ r :: post →
        (∀ q ∈ pre, q.applies_to path = false) → r.applies_to path = true →
        e.allowance path = r.allowance) ∧
    (∀ (e : Entry) (path : String),
        (∀ q ∈ e.rulelines, q.applies_to path = false) →
        e.allowance path = true) ∧
    (RobotFileParser.parse "User-agent: a\nDisallow: /x\nAllow: /x/y\n").can_fetch
      "a" "/x/y" = false := by
  refine ⟨?_, ?_, by decide⟩
  · intro e path pre r post hdec hpre hr
    unfold Entry.allowance
    rw [hdec, find?_append_first _ pre r post hpre hr]
  · intro e path h
    unfold Entry.allowance
    rw [List.find?_eq_none.mpr fun q hq => by simp [h q hq]]

/-- Witness for C1 at a concrete group and path. -/
theorem allowance_first_match_wins_witness :
    (Entry.mk ["a"] [⟨"/x", false⟩, ⟨"/x/y", true⟩] none [] none).allowance
      "/x/y" = false :=
  allowance_first_match_wins.1
    (Entry.mk ["a"] [⟨"/x", false⟩, ⟨"/x/y", true⟩] none [] none) "/x/y"
    [] ⟨"/x", false⟩ [⟨"/x/y", true⟩] rfl (by simp) (by decide)

/-- Claim C3: a committed group declaring the literal agent `"*"` is
installed as the default group only when the default slot is still empty;
a later `"*"` group is discarded entirely and never appended to the
explicit groups sequence. -/
theorem default_group_first_wins :
    (∀ (p : RobotFileParser) (e : Entry), e.has_useragent "*" = true →
        (p._add_entry e).entries = p.entries ∧
        (p.default_entry.is_empty = true →
          (p._add_entry e).default_entry = e) ∧
        (p.default_entry.is_empty = false → p._add_entry e = p)) ∧
    ((RobotFileParser.parse
        "User-agent: *\nDisallow: /a\n\nUser-agent: *\nDisallow: /b\n").entries
        = [] ∧
      (RobotFileParser.parse
        "User-agent: *\nDisallow: /a\n\nUser-agent: *\nDisallow: /b\n").default_entry.rulelines
        = [⟨"/a", false⟩] ∧
      (RobotFileParser.parse
        "User-agent: *\nDisallow: /a\n\nUser-agent: *\nDisallow: /b\n").can_fetch
        "x" "/a" = false ∧
      (RobotFileParser.parse
        "User-agent: *\nDisallow: /a\n\nUser-agent: *\nDisallow: /b\n").can_fetch
        "x" "/b" = true) := by
  refine ⟨?_, by decide⟩
  intro p e he
  unfold RobotFileParser._add_entry
  rw [if_pos he]
  by_cases hd : p.default_entry.is_empty = true
  · rw [if_pos hd]
    exact ⟨rfl, fun _ => rfl, fun hc => nomatch hd.symm.trans hc⟩
  · rw [if_neg hd]
    exact ⟨rfl, fun hc => absurd hc hd, fun _ => rfl⟩

/-- Witness for C3 at a concrete ruleset and `"*"` group. -/
theorem default_group_first_wins_witness :
    ((RobotFileParser.mk [] Entry.new false false)._add_entry
        (Entry.mk ["*"] [⟨"/a", false⟩] none [] none)).default_entry =
      Entry.mk ["*"] [⟨"/a", false⟩] none [] none :=
  (default_group_first_wins.1 (RobotFileParser.mk [] Entry.new false false)
    (Entry.mk ["*"] [⟨"/a", false⟩] none [] none) (by decide)).2.1 (by decide)

/-- Claim C5: `RuleLine::new` forces the allow flag to true exactly when
the path is empty and the requested flag was false, and a ruleset whose
only rule came from an empty-value `Disallow:` line allows every fetch. -/
theorem empty_disallow_allows_all :
    (∀ (path : String) (allow : Bool),
        ((path = "" ∧ allow = false) → RuleLine.new path allow = ⟨path, true⟩) ∧
        (¬(path = "" ∧ allow = false) →
          RuleLine.new path allow = ⟨path, allow⟩)) ∧
    (∀ (useragent url : String),
        (RobotFileParser.parse "User-agent: a\nDisallow:\n").can_fetch
          useragent url = true) := by
  constructor
  · intro path allow
    constructor
    · rintro ⟨h1, h2⟩
      subst h1
      subst h2
      decide
    · intro h
      unfold RuleLine.new
      rw [if_neg ?hc]
      case hc =>
        simp only [Bool.and_eq_true, beq_iff_eq, Bool.not_eq_true']
        exact h
  · have hp : RobotFileParser.parse "User-agent: a\nDisallow:\n" =
        RobotFileParser.mk [Entry.mk ["a"] [⟨"", true⟩] none [] none]
          Entry.new false false := by decide
    intro useragent url
    rw [hp]
    unfold RobotFileParser.can_fetch
    simp only [List.find?_singleton]
    by_cases ha :
        (Entry.mk ["a"] [⟨"", true⟩] none [] none).applies_to useragent = true
    · rw [if_pos ha]
      simp [Entry.allowance, RuleLine.applies_to]
    · rw [if_neg ha]
      simp [Entry.is_empty, Entry.new]

/-- Witness for C5 at the empty path. -/
theorem empty_disallow_allows_all_witness :
    RuleLine.new "" false = ⟨"", true⟩ :=
  (empty_disallow_allows_all.1 "" false).1 ⟨rfl, rfl⟩

/-- Claim C10: when an explicit group applies, `sitemaps` returns `some`
of the first applying group's sitemap list, even when that list is empty,
and never falls through to a later applying group; when no explicit group
applies it returns `none`. -/
theorem sitemaps_first_group :
    (∀ (p : RobotFileParser) (ua : String) (pre : List Entry) (e : Entry)
        (post : List Entry), p.entries = pre ++ e :: post →
        (∀ q ∈ pre, q.applies_to ua = false) → e.applies_to ua = true →
        p.sitemaps ua = some e.sitemaps) ∧
    (∀ (p : RobotFileParser) (ua : String),
        (∀ q ∈ p.entries, q.applies_to ua = false) → p.sitemaps ua = none) ∧
    ((RobotFileParser.parse
        "User-agent: a\nDisallow: /x\n\nUser-agent: a\nSitemap: http://example.com/s.xml\n").sitemaps
        "a" = some [] ∧
      (RobotFileParser.parse
        "User-agent: a\nDisallow: /x\n\nUser-agent: a\nSitemap: http://example.com/s.xml\n").entries.map
        Entry.sitemaps = [[], ["http://example.com/s.xml"]]) := by
  refine ⟨?_, ?_, by decide⟩
  · intro p ua pre e post hdec hpre he
    unfold RobotFileParser.sitemaps
    rw [hdec, find?_append_first _ pre e post hpre he]
  · intro p ua h
    unfold RobotFileParser.sitemaps
    rw [List.find?_eq_none.mpr fun q hq => by simp [h q hq]]

/-- Witness for C10: an applying group with no sitemaps yields `some []`. -/
theorem sitemaps_first_group_witness :
    (RobotFileParser.mk [Entry.mk ["a"] [] none [] none] Entry.new false
      false).sitemaps "a" = some [] :=
  sitemaps_first_group.1
    (RobotFileParser.mk [Entry.mk ["a"] [] none [] none] Entry.new false false)
    "a" [] (Entry.mk ["a"] [] none [] none) [] rfl (by simp) (by decide)


/-- Claim C2: `can_fetch` falls back to the non-empty default (`"*"`)
group when no explicit group applies (and to true when even that is
absent), whereas `crawl_delay`, `sitemaps` and `request_rate` scan only
the explicit groups in insertion order and return an absent result when no
explicit group applies, never consulting the default group. -/
theorem fallback_asymmetry :
    (∀ (p : RobotFileParser) (ua url : String), p.disallow_all = false →
        p.allow_all = false → (∀ q ∈ p.entries, q.applies_to ua = false) →
        p.default_entry.is_empty = false →
        p.can_fetch ua url = p.default_entry.allowance (urlPath url)) ∧
    (∀ (p : RobotFileParser) (ua url : String), p.disallow_all = false →
        p.allow_all = false → (∀ q ∈ p.entries, q.applies_to ua = false) →
        p.default_entry.is_empty = true → p.can_fetch ua url = true) ∧
    (∀ (p : RobotFileParser) (ua : String) (pre : List Entry) (e : Entry)
        (post : List Entry), p.entries = pre ++ e :: post →
        (∀ q ∈ pre, q.applies_to ua = false) → e.applies_to ua = true →
        p.crawl_delay ua = e.crawl_delay ∧
        p.sitemaps ua = some e.sitemaps ∧
        p.request_rate ua = e.req_rate) ∧
    (∀ (p : RobotFileParser) (ua : String),
        (∀ q ∈ p.entries, q.applies_to ua = false) →
        p.crawl_delay ua = none ∧ p.sitemaps ua = none ∧
        p.request_rate ua = none) ∧
    ((RobotFileParser.parse
        "User-agent: *\nDisallow: /x\nCrawl-delay: 5\n").crawl_delay "a"
        = none ∧
      (RobotFileParser.parse
        "User-agent: *\nDisallow: /x\nCrawl-delay: 5\n").sitemaps "a"
        = none ∧
      (RobotFileParser.parse
        "User-agent: *\nDisallow: /x\nCrawl-delay: 5\n").request_rate "a"
        = none ∧
      (RobotFileParser.parse
        "User-agent: *\nDisallow: /x\nCrawl-delay: 5\n").can_fetch "a" "/x"
        = false ∧
      (RobotFileParser.parse
        "User-agent: *\nDisallow: /x\nCrawl-delay: 5\n").default_entry.crawl_delay
        = some ⟨5, 0⟩) := by
  have hnone : ∀ (p : RobotFileParser) (ua : String),
      (∀ q ∈ p.entries, q.applies_to ua = false) →
      List.find? (fun entry => entry.applies_to ua) p.entries = none :=
    fun p ua h => List.find?_eq_none.mpr fun q hq => by simp [h q hq]
  refine ⟨?_, ?_, ?_, ?_, by decide⟩
  · intro p ua url h1 h2 h3 h4
    unfold RobotFileParser.can_fetch
    rw [h1, h2, hnone p ua h3]
    simp [h4]
  · intro p ua url h1 h2 h3 h4
    unfold RobotFileParser.can_fetch
    rw [h1, h2, hnone p ua h3]
    simp [h4]
  · intro p ua pre e post hdec hpre he
    refine ⟨?_, ?_, ?_⟩
    · unfold RobotFileParser.crawl_delay
      rw [hdec, find?_append_first _ pre e post hpre he]
    · unfold RobotFileParser.sitemaps
      rw [hdec, find?_append_first _ pre e post hpre he]
    · unfold RobotFileParser.request_rate
      rw [hdec, find?_append_first _ pre e post hpre he]
  · intro p ua h
    refine ⟨?_, ?_, ?_⟩
    · unfold RobotFileParser.crawl_delay
      rw [hnone p ua h]
    · unfold RobotFileParser.sitemaps
      rw [hnone p ua h]
    · unfold RobotFileParser.request_rate
      rw [hnone p ua h]

/-- Witness for C2: a ruleset whose only group is the default yields no
crawl delay for an agent the default would cover. -/
theorem fallback_asymmetry_witness :
    (RobotFileParser.mk []
        (Entry.mk ["*"] [⟨"/x", false⟩] (some ⟨5, 0⟩) [] none) false
        false).crawl_delay "a" = none :=
  (fallback_asymmetry.2.2.2.1
    (RobotFileParser.mk []
      (Entry.mk ["*"] [⟨"/x", false⟩] (some ⟨5, 0⟩) [] none) false false)
    "a" (by simp)).1

/-- Claim C4: group agent matching takes the candidate token before the
first `/`, lower-cases it, and matches iff a stored agent is the literal
`"*"` or occurs in that token as a substring; `"ExampleBot/2.0"` matches a
declared agent `"bot"`. -/
theorem agent_substring_match :
    (∀ (e : Entry) (pre rest : List Char), (∀ x ∈ pre, x ≠ '/') →
        e.applies_to ⟨pre ++ '/' :: rest⟩ = e.applies_to ⟨pre⟩) ∧
    (∀ (e : Entry) (ua : String), (∀ x ∈ ua.data, x ≠ '/') →
        (e.applies_to ua = true ↔ ∃ agent ∈ e.useragents,
          agent = "*" ∨ agent.data <:+: lowerChars ua.data)) ∧
    ((Entry.mk ["bot"] [] none [] none).applies_to "ExampleBot/2.0" = true ∧
      (RobotFileParser.parse "User-agent: Bot\nDisallow: /\n").can_fetch
        "ExampleBot/2.0" "/" = false) := by
  have htake1 : ∀ (pre rest : List Char), (∀ x ∈ pre, x ≠ '/') →
      (pre ++ '/' :: rest).takeWhile (fun y => y ≠ '/') = pre := by
    intro pre rest h
    rw [List.takeWhile_append_of_pos (by intro a ha; simpa using h a ha)]
    simp [List.takeWhile_cons]
  have htake2 : ∀ pre : List Char, (∀ x ∈ pre, x ≠ '/') →
      pre.takeWhile (fun y => y ≠ '/') = pre := by
    intro pre h
    exact List.takeWhile_eq_self_iff.mpr fun x hx => by simpa using h x hx
  refine ⟨?_, ?_, by decide⟩
  · intro e pre rest h
    unfold Entry.applies_to
    rw [string_data_mk, string_data_mk, splitOnChar_headD, splitOnChar_headD,
      htake1 pre rest h, htake2 pre h]
  · intro e ua h
    unfold Entry.applies_to
    rw [splitOnChar_headD, htake2 ua.data h, List.any_eq_true]
    constructor
    · rintro ⟨agent, hmem, hp⟩
      simp only [Bool.or_eq_true, beq_iff_eq, containsSeq_iff] at hp
      exact ⟨agent, hmem, hp⟩
    · rintro ⟨agent, hmem, hp⟩
      refine ⟨agent, hmem, ?_⟩
      simp only [Bool.or_eq_true, beq_iff_eq, containsSeq_iff]
      exact hp

/-- Witness for C4: the token `examplebot` contains the stored agent
`bot`. -/
theorem agent_substring_match_witness :
    (Entry.mk ["bot"] [] none [] none).applies_to "ExampleBot" = true :=
  (agent_substring_match.2.1 (Entry.mk ["bot"] [] none [] none) "ExampleBot"
    (by decide)).mpr ⟨"bot", by simp, Or.inr (by decide)⟩


/-- Counterexample to claim C6: a line that is blank only after
normalization (here a single space between a `User-agent` line and a
`Disallow` line) does not discard the in-progress group — the group, with
its later rule, still reaches the ruleset, so the claimed transition on
normalized-blank lines does not happen. -/
theorem blank_line_counterexample :
    (RobotFileParser.parse "User-agent: a\n \nDisallow: /x\n").entries.map
      Entry.useragents = [["a"]] ∧
    (RobotFileParser.parse "User-agent: a\n \nDisallow: /x\n").can_fetch "a"
      "/x" = false := by
  decide

/-- Amended claim C6: only a raw-empty line triggers the state
transitions (discard the group in state 1, commit it in state 2, no-op in
state 0); a non-empty line that becomes blank after comment-stripping and
trimming is skipped with no effect; and a user-agent block with no
directive lines before a raw blank line contributes no group. -/
theorem blank_line_transitions :
    (∀ st : ParseSt,
        (st.state = 1 →
          parseLine st [] = { st with entry := Entry.new, state := 0 }) ∧
        (st.state = 2 →
          parseLine st [] =
            { st with
              robots := st.robots._add_entry st.entry
              entry := Entry.new
              state := 0 }) ∧
        (st.state = 0 → parseLine st [] = st)) ∧
    (∀ (st : ParseSt) (ln : List Char), ln ≠ [] →
        trimChars (ln.takeWhile (fun c => c ≠ '#')) = [] →
        parseLine st ln = st) ∧
    ((RobotFileParser.parse "User-agent: a\n\nDisallow: /x\n").entries = [] ∧
      (RobotFileParser.parse "User-agent: a\n\nDisallow: /x\n").default_entry
        = Entry.new) := by
  refine ⟨?_, ?_, by decide⟩
  · intro st
    have hbl : parseLine st [] = blankStep st := rfl
    refine ⟨fun h => ?_, fun h => ?_, fun h => ?_⟩ <;>
      rw [hbl] <;> unfold blankStep <;> rw [h]
  · intro st ln h1 h2
    simp only [parseLine]
    rw [h2, if_pos rfl, if_neg h1]

/-- Witness for C6 (amended): a raw-empty line in state 1 resets the
in-progress group. -/
theorem blank_line_transitions_witness :
    parseLine ⟨RobotFileParser.mk [] Entry.new false false, 1,
        Entry.mk ["a"] [] none [] none⟩ [] =
      ⟨RobotFileParser.mk [] Entry.new false false, 0, Entry.new⟩ :=
  (blank_line_transitions.1 ⟨RobotFileParser.mk [] Entry.new false false, 1,
    Entry.mk ["a"] [] none [] none⟩).1 rfl

/-- Counterexample to claim C7: `can_fetch` trims before percent-decoding,
not the other way around.  On the url `"%20"` the source's preprocessing
yields the one-space path `" "` (so the `Disallow: /` rule does not apply
and the fetch is allowed), while the spec's claimed decode-then-trim order
yields `"/"`, on which the same ruleset denies the fetch. -/
theorem url_preprocess_counterexample :
    urlPath "%20" = " " ∧ specUrlPath "%20" = "/" ∧
    (RobotFileParser.parse "User-agent: a\nDisallow: /\n").can_fetch "a"
      "%20" = true ∧
    (RobotFileParser.parse "User-agent: a\nDisallow: /\n").can_fetch "a"
      "/" = false := by
  decide

/-- Amended claim C7: `can_fetch` preprocesses its url argument by
trimming it and then percent-decoding it, substituting the path `"/"`
when the decoded result is empty; a percent-decoding failure (a decoded
byte sequence that is not valid UTF-8, e.g. `"%FF"`) is treated as
decoding to the empty string and hence also yields `"/"`.  The group and
rule matching then operates on this preprocessed path. -/
theorem url_preprocessing :
    (∀ url : String, percentDecode (trimChars url.data) = [] →
        urlPath url = "/") ∧
    (∀ url : String, percentDecode (trimChars url.data) ≠ [] →
        (urlPath url).data = percentDecode (trimChars url.data)) ∧
    (∀ url : String,
        utf8Decode? (percentDecodeBytes (strBytes (trimChars url.data)))
          = none → urlPath url = "/") ∧
    (∀ (p : RobotFileParser) (ua url : String) (pre : List Entry) (e : Entry)
        (post : List Entry), p.disallow_all = false → p.allow_all = false →
        p.entries = pre ++ e :: post → (∀ q ∈ pre, q.applies_to ua = false) →
        e.applies_to ua = true →
        p.can_fetch ua url = e.allowance (urlPath url)) ∧
    urlPath "%FF" = "/" := by
  refine ⟨?_, ?_, ?_, ?_, by decide⟩
  · intro url h
    unfold urlPath
    rw [h]
    simp
  · intro url h
    unfold urlPath
    rw [if_pos h]
  · intro url h
    unfold urlPath percentDecode
    rw [h]
    simp
  · intro p ua url pre e post h1 h2 hdec hpre he
    unfold RobotFileParser.can_fetch
    rw [h1, h2, hdec, find?_append_first _ pre e post hpre he]
    simp

/-- Witness for C7 (amended): the first applying group judges the
preprocessed path. -/
theorem url_preprocessing_witness :
    (RobotFileParser.mk [Entry.mk ["a"] [] none [] none] Entry.new false
        false).can_fetch "a" "/q" =
      (Entry.mk ["a"] [] none [] none).allowance (urlPath "/q") :=
  url_preprocessing.2.2.2.1
    (RobotFileParser.mk [Entry.mk ["a"] [] none [] none] Entry.new false
      false) "a" "/q" [] (Entry.mk ["a"] [] none [] none) [] rfl rfl rfl
    (by simp) (by decide)

/-- Claim C8: `parse` is total and degrades gracefully — lines with no
`:`, or with an unrecognised directive name, leave the parse context
unchanged; a sitemap or request-rate value that fails to parse leaves the
corresponding field unchanged (only the state advances); and every parse
returns a ruleset with both global override flags unset. -/
theorem parse_total_graceful :
    (∀ (st : ParseSt) (ln : List Char), ln ≠ [] →
        splitFirstColon (trimChars (ln.takeWhile (fun c => c ≠ '#'))) = none →
        parseLine st ln = st) ∧
    (∀ (st : ParseSt) (ln p0 p1 : List Char), ln ≠ [] →
        splitFirstColon (trimChars (ln.takeWhile (fun c => c ≠ '#')))
          = some (p0, p1) →
        dirOf (lowerChars (trimChars p0)) = none → parseLine st ln = st) ∧
    (∀ (st : ParseSt) (p1 : List Char), st.state ≠ 0 →
        urlParseOk p1 = false →
        applyDirective st "sitemap".data p1 = { st with state := 2 }) ∧
    (∀ (st : ParseSt) (p1 : List Char), st.state ≠ 0 →
        (∀ rq sc, (splitOnChar '/' p1).map parseUsize ≠ [some rq, some sc]) →
        applyDirective st "request-rate".data p1 = { st with state := 2 }) ∧
    (∀ s : String, (RobotFileParser.parse s).disallow_all = false ∧
        (RobotFileParser.parse s).allow_all = false) := by
  refine ⟨?_, ?_, ?_, ?_, ?_⟩
  · intro st ln h1 h2
    simp only [parseLine]
    by_cases hln2 : trimChars (ln.takeWhile (fun c => c ≠ '#')) = []
    · rw [hln2, if_pos rfl, if_neg h1]
    · rw [if_neg hln2, h2, if_neg h1]
  · intro st ln p0 p1 h1 h2 h3
    have hln2 : trimChars (ln.takeWhile (fun c => c ≠ '#')) ≠ [] := by
      intro hh
      rw [hh] at h2
      exact Option.noConfusion h2
    simp only [parseLine]
    rw [if_neg hln2, h2, if_neg h1]
    unfold applyDirective
    simp only [h3]
  · intro st p1 h1 h2
    have hd : dirOf "sitemap".data = some Dir.sitemap := by decide
    unfold applyDirective
    rw [hd]
    simp only [if_pos h1]
    have hadd : (st.entry.add_sitemap ⟨p1⟩) = st.entry := by
      unfold Entry.add_sitemap
      rw [string_data_mk, h2]
      simp
    rw [hadd]
  · intro st p1 h1 h2
    have hd : dirOf "request-rate".data = some Dir.requestRate := by decide
    unfold applyDirective
    rw [hd]
    simp only [if_pos h1]
    rw [rateUpdate_shape st.entry _ h2]
  · intro s
    unfold RobotFileParser.parse
    by_cases hfin : (List.foldl parseLine
        ⟨RobotFileParser.mk [] Entry.new false false, 0, Entry.new⟩
        (splitOnChar '\n' s.data)).state = 2
    · rw [if_pos hfin]
      have h := foldl_parseLine_flags (splitOnChar '\n' s.data)
        ⟨RobotFileParser.mk [] Entry.new false false, 0, Entry.new⟩
      exact ⟨(addEntry_flags _ _).1.trans h.1, (addEntry_flags _ _).2.trans h.2⟩
    · rw [if_neg hfin]
      exact foldl_parseLine_flags (splitOnChar '\n' s.data)
        ⟨RobotFileParser.mk [] Entry.new false false, 0, Entry.new⟩

/-- Witness for C8: an unparsable sitemap value is dropped while the
state still advances. -/
theorem parse_total_graceful_witness :
    applyDirective ⟨RobotFileParser.mk [] Entry.new false false, 1,
        Entry.new⟩ "sitemap".data "notaurl".data =
      ⟨RobotFileParser.mk [] Entry.new false false, 2, Entry.new⟩ :=
  parse_total_graceful.2.2.1 ⟨RobotFileParser.mk [] Entry.new false false, 1,
    Entry.new⟩ "notaurl".data (by decide) (by decide)

/-- Counterexample to claim C9: the crawl-delay value is not parsed as a
non-negative decimal number — `-1` is outside that grammar yet is parsed
and stored (as a zero duration) rather than leaving the field unchanged. -/
theorem crawl_delay_counterexample :
    specNonNegDecimal "-1".data = false ∧
    (applyDirective ⟨RobotFileParser.mk [] Entry.new false false, 1,
        Entry.new⟩ "crawl-delay".data "-1".data).entry.crawl_delay
      = some ⟨0, 0⟩ ∧
    (RobotFileParser.parse "User-agent: a\nCrawl-delay: -1\n").entries.map
      Entry.crawl_delay = [some ⟨0, 0⟩] := by
  decide

/-- Amended claim C9: for a crawl-delay directive processed while the
state is not START, the value is parsed as a decimal floating-point
number (sign permitted, fractions allowed; negative values saturate to a
zero duration): on successful parse the resulting duration is stored, on
parse failure the crawl-delay field is left unchanged, and in either case
the state advances to SAW_RULE. -/
theorem crawl_delay_directive :
    ∀ (st : ParseSt) (p1 : List Char), st.state ≠ 0 →
      (∀ f, parseF64 p1 = some f →
        applyDirective st "crawl-delay".data p1 =
          { st with
            entry := st.entry.set_crawl_delay (durationOfF64 f)
            state := 2 }) ∧
      (parseF64 p1 = none →
        applyDirective st "crawl-delay".data p1 = { st with state := 2 }) := by
  intro st p1 hst
  have hd : dirOf "crawl-delay".data = some Dir.crawlDelay := by decide
  constructor
  · intro f hf
    unfold applyDirective
    rw [hd]
    simp only [if_pos hst]
    rw [hf]
  · intro hf
    unfold applyDirective
    rw [hd]
    simp only [if_pos hst]
    rw [hf]

/-- Witness for C9 (amended): `2.5` parses and is stored as 2 seconds and
500000000 nanoseconds. -/
theorem crawl_delay_directive_witness :
    applyDirective ⟨RobotFileParser.mk [] Entry.new false false, 1,
        Entry.new⟩ "crawl-delay".data "2.5".data =
      ⟨RobotFileParser.mk [] Entry.new false false, 2,
        Entry.new.set_crawl_delay ⟨2, 500000000⟩⟩ := by
  rw [(crawl_delay_directive ⟨RobotFileParser.mk [] Entry.new false false, 1,
    Entry.new⟩ "2.5".data (by decide)).1 (FParsed.fin false 25 1) (by decide)]
  decide

end Robots
